import Mathlib

/-!
Verification development for the Rusthon tree-walking interpreter
(lexer.rs, parser.rs, ast.rs, interpreter.rs, stdlib.rs).

The Rust source is shallowly embedded:
* `ast.rs` data types become Lean inductives (`Ty`, `BinOp`, `Expr`, `Stmt`,
  `Function`, `Program`);
* the runtime `Value` enum and the environment stack
  (`Vec<HashMap<String, Value>>`) become `Value` and `EnvStack`
  (a list of association-list frames; the head of the list is the
  innermost scope, mirroring `env_stack.iter().rev()`);
* every Rust `panic!` is an `Err.fatal` in an `Except` result;
* recursion/loops of the interpreter are driven by an explicit fuel
  parameter; running out of fuel is the distinct outcome `Err.outOfFuel`,
  never confused with a fatal error;
* Rust `i64` is modelled as `Int` (no claim under consideration exercises
  64-bit overflow); `String::len` (UTF-8 byte count) is modelled by
  `String.utf8ByteSize`, `str.chars().count()` by `String.length`;
* console output of `print` is an external side effect and is not part of
  the value-level model; `print`'s value behaviour (always `Unit`) is kept.
-/

namespace Rusthon

/-! ## ast.rs -/

/-- Static types (`ast.rs::Type`). -/
inductive Ty where
  | int
  | bool
  | str
  | list
deriving Repr, DecidableEq

/-- Binary operators (`ast.rs::BinOp`). -/
inductive BinOp where
  | add
  | sub
  | mul
  | div
  | eq
  | notEq
  | lt
  | ltEq
  | gt
  | gtEq
deriving Repr, DecidableEq

/-- Expressions (`ast.rs::Expr`). -/
inductive Expr where
  | int (n : Int)
  | bool (b : Bool)
  | str (s : String)
  | var (name : String)
  | binary (left : Expr) (op : BinOp) (right : Expr)
  | call (callee : String) (args : List Expr)
  | listLiteral (items : List Expr)
deriving Repr

/-- Statements (`ast.rs::Stmt`). -/
inductive Stmt where
  | varDecl (name : String) (ty : Ty) (init : Expr)
  | exprStmt (e : Expr)
  | assign (name : String) (e : Expr)
  | branch (cond : Expr) (thenBranch : List Stmt)
      (elseIfBranches : List Stmt) (elseBranch : List Stmt)
  | elseIfBranch (cond : Expr) (thenBranch : List Stmt)
  | whileStmt (cond : Expr) (body : List Stmt)
  | forStmt (init : Option Stmt) (cond : Option Expr) (step : Option Stmt)
      (body : List Stmt)
  | forEach (varName : String) (iterExpr : Expr) (body : List Stmt)
  | ret (e : Option Expr)
deriving Repr

/-- User-defined functions (`ast.rs::Function`). -/
structure Function where
  name : String
  params : List (String × Ty)
  body : List Stmt
deriving Repr

/-- A whole program (`ast.rs::Program`). -/
structure Program where
  functions : List Function
  stmts : List Stmt
deriving Repr

/-! ## interpreter.rs: values and environments -/

/-- Runtime values (`interpreter.rs::Value`). -/
inductive Value where
  | int (n : Int)
  | bool (b : Bool)
  | str (s : String)
  | list (items : List Value)
  | unit
deriving Repr

/-- `true` exactly for `Value::Bool(_)`. -/
def Value.isBool : Value → Bool
  | .bool _ => true
  | _ => false

/-- Fatal interpreter outcomes: `Err.fatal` embeds every Rust `panic!`;
`Err.outOfFuel` is exhaustion of the explicit fuel that drives the
embedded recursion (no Rust counterpart; it only means "ran longer than
the given fuel"). -/
inductive Err where
  | fatal (msg : String)
  | outOfFuel
deriving Repr, DecidableEq

/-- One scope frame: a `HashMap<String, Value>` modelled as an association
list in which keys are unique (inserts remove the old key first). -/
abbrev Frame := List (String × Value)

/-- The environment stack (`Interpreter::env_stack`).  The Rust `Vec` pushes
at the back and searches with `.iter().rev()`; here the head of the list is
the innermost (most recently pushed) frame and the last element the global
frame, so forward traversal matches the reverse traversal of the `Vec`. -/
abbrev EnvStack := List Frame

/-- Lookup inside one frame (`HashMap::get`). -/
def frameGet (fr : Frame) (name : String) : Option Value :=
  (fr.find? (fun p => p.1 == name)).map (·.2)

/-- `HashMap::insert`: replaces an existing binding for `name`, keys stay
unique within the frame. -/
def frameInsert (fr : Frame) (name : String) (v : Value) : Frame :=
  (name, v) :: fr.filter (fun p => p.1 != name)

/-- `Interpreter::push_env`. -/
def pushEnv (s : EnvStack) : EnvStack := [] :: s

/-- `Interpreter::pop_env`.  Total (`List.tail`): the interpreter only pops
frames it pushed, which the stack-shape invariants below make precise. -/
def popEnv (s : EnvStack) : EnvStack := s.tail

/-- `Interpreter::define_var`: bind in the current (innermost) frame. -/
def defineVar (s : EnvStack) (name : String) (v : Value) : EnvStack :=
  match s with
  | [] => []
  | fr :: rest => frameInsert fr name v :: rest

/-- `Interpreter::assign_var`: mutate the innermost existing binding;
`none` models the `panic!("assignment to undeclared variable")`. -/
def assignVar (s : EnvStack) (name : String) (v : Value) : Option EnvStack :=
  match s with
  | [] => none
  | fr :: rest =>
    if (frameGet fr name).isSome then
      some (frameInsert fr name v :: rest)
    else
      (assignVar rest name v).map (fr :: ·)

/-- `Interpreter::get_var`: search frames innermost to outermost. -/
def getVar (s : EnvStack) (name : String) : Option Value :=
  match s with
  | [] => none
  | fr :: rest =>
    match frameGet fr name with
    | some v => some v
    | none => getVar rest name

/-- `Interpreter::value_matches_type`. -/
def valueMatchesType (v : Value) (ty : Ty) : Bool :=
  match v, ty with
  | .int _, .int => true
  | .bool _, .bool => true
  | .str _, .str => true
  | .list _, .list => true
  | _, _ => false

/-- The user-function table built by `Interpreter::run`
(`collect` into a `HashMap`: a later definition of the same name
overwrites an earlier one, hence the left fold keeping the last match). -/
def findFunc (fs : List Function) (name : String) : Option Function :=
  fs.foldl (fun acc f => if f.name == name then some f else acc) none

/-! ## interpreter.rs: binary operators (`Interpreter::eval_bin`) -/

/-- `Interpreter::eval_bin`.  Pure: takes both operand values, returns a
value or the corresponding `panic!`.  Integer division is Rust `i64`
division, i.e. truncation toward zero (`Int.tdiv`), and division by zero
is the fatal Rust division-by-zero panic.  String order comparisons use
`String::len`, i.e. the UTF-8 byte count (`String.utf8ByteSize`). -/
def evalBin (left : Value) (op : BinOp) (right : Value) : Except Err Value :=
  match op with
  | .add =>
    match left, right with
    | .int l, .int r => .ok (.int (l + r))
    | .str l, .str r => .ok (.str (l ++ r))
    | _, _ => .error (.fatal "Type error in plus")
  | .sub =>
    match left, right with
    | .int l, .int r => .ok (.int (l - r))
    | _, _ => .error (.fatal "Type error, you cannot subtract non-int values")
  | .div =>
    match left, right with
    | .int l, .int r =>
      if r = 0 then .error (.fatal "attempt to divide by zero")
      else .ok (.int (l.tdiv r))
    | _, _ => .error (.fatal "Type error, you cannot divide non-int values")
  | .mul =>
    match left, right with
    | .int l, .int r => .ok (.int (l * r))
    | _, _ => .error (.fatal "Type error, you cannot multiply non-int values")
  | .eq =>
    match left, right with
    | .int l, .int r => .ok (.bool (l == r))
    | .bool l, .bool r => .ok (.bool (l == r))
    | .str l, .str r => .ok (.bool (l == r))
    | _, _ => .error (.fatal "Type error in eq-eq")
  | .gt =>
    match left, right with
    | .int l, .int r => .ok (.bool (l > r))
    | .str l, .str r => .ok (.bool (l.utf8ByteSize > r.utf8ByteSize))
    | _, _ => .error (.fatal "Type error in gt")
  | .gtEq =>
    match left, right with
    | .int l, .int r => .ok (.bool (l ≥ r))
    | .str l, .str r => .ok (.bool (l.utf8ByteSize ≥ r.utf8ByteSize))
    | _, _ => .error (.fatal "Type error in gt-eq")
  | .lt =>
    match left, right with
    | .int l, .int r => .ok (.bool (l < r))
    | .str l, .str r => .ok (.bool (l.utf8ByteSize < r.utf8ByteSize))
    | _, _ => .error (.fatal "Type error in lt")
  | .ltEq =>
    match left, right with
    | .int l, .int r => .ok (.bool (l ≤ r))
    | .str l, .str r => .ok (.bool (l.utf8ByteSize ≤ r.utf8ByteSize))
    | _, _ => .error (.fatal "Type error in lt-eq")
  | .notEq =>
    match left, right with
    | .int l, .int r => .ok (.bool (l != r))
    | .str l, .str r => .ok (.bool (l != r))
    | _, _ => .error (.fatal "Type error in not-eq")

/-! ## stdlib.rs -/

/-- Rust `derive(Debug)` rendering of a `Value`, used by the `str` builtin
for list elements (`format!` with the debug formatter). -/
def valueDebug : Value → String
  | .int n => "Int(" ++ toString n ++ ")"
  | .bool b => "Bool(" ++ toString b ++ ")"
  | .str s => "Str(\"" ++ s ++ "\")"
  | .unit => "Unit"
  | .list items =>
    "List([" ++
      String.intercalate ", " (items.attach.map (fun v => valueDebug v.1)) ++ "])"
decreasing_by
  have := List.sizeOf_lt_of_mem v.2
  simp only [Value.list.sizeOf_spec]
  omega

/-- `stdlib.rs::call_builtin`.  `ok none` is Rust `None` ("not a builtin,
fall through to user functions"); `ok (some v)` is a handled call; `error`
is a `panic!` inside a builtin.  Output of `print` is an external side
effect; its value result (`Unit`) is modelled. -/
def callBuiltin (name : String) (args : List Value) : Except Err (Option Value) :=
  match name with
  | "print" =>
    .ok (some .unit)
  | "len" =>
    if args.length ≠ 1 then .error (.fatal "len(x) expects exactly 1 argument")
    else
      match args with
      | [.str s] => .ok (some (.int (Int.ofNat s.length)))
      | [.list items] => .ok (some (.int (Int.ofNat items.length)))
      | _ => .error (.fatal "len(...) is not defined for value")
  | "range" =>
    if args.length ≠ 1 then .error (.fatal "range(n) expects exactly 1 argument")
    else
      match args with
      | [.int n] =>
        if n < 0 then .error (.fatal "range(n): n must be >= 0")
        else .ok (some (.list ((List.range n.toNat).map (fun i => .int (Int.ofNat i)))))
      | _ => .error (.fatal "range(n): n must be int")
  | "push" =>
    if args.length ≠ 2 then .error (.fatal "push(list, value) expects exactly 2 arguments")
    else
      match args with
      | [.list items, v] => .ok (some (.list (items ++ [v])))
      | _ => .error (.fatal "push(list, value): first arg must be list")
  | "head" =>
    if args.length ≠ 1 then .error (.fatal "head(list) expects exactly 1 argument")
    else
      match args with
      | [.list items] =>
        match items with
        | [] => .error (.fatal "head([]): empty list")
        | x :: _ => .ok (some x)
      | _ => .error (.fatal "head(list): argument must be list")
  | "tail" =>
    if args.length ≠ 1 then .error (.fatal "tail(list) expects exactly 1 argument")
    else
      match args with
      | [.list items] =>
        match items with
        | [] => .error (.fatal "tail([]): empty list")
        | _ :: rest => .ok (some (.list rest))
      | _ => .error (.fatal "tail(list): argument must be list")
  | "str" =>
    if args.length ≠ 1 then .error (.fatal "str(x) expects exactly 1 argument")
    else
      match args with
      | [.int n] => .ok (some (.str (toString n)))
      | [.bool b] => .ok (some (.str (toString b)))
      | [.str s] => .ok (some (.str s))
      | [.list items] =>
        .ok (some (.str ("[" ++ String.intercalate ", " (items.map valueDebug) ++ "]")))
      | [.unit] => .ok (some (.str "()"))
      | _ => .error (.fatal "str(x) expects exactly 1 argument")
  | "int" =>
    if args.length ≠ 1 then .error (.fatal "int(x) expects exactly 1 argument")
    else
      match args with
      | [.int n] => .ok (some (.int n))
      | [.bool b] => .ok (some (.int (if b then 1 else 0)))
      | [.str s] =>
        match s.toInt? with
        | some n => .ok (some (.int n))
        | none => .error (.fatal "int(x): cannot parse string as integer")
      | _ => .error (.fatal "int(x) is not defined for this value")
  | _ => .ok none

/-! ## interpreter.rs: the evaluator

All mutually recursive parts of `Interpreter` take an explicit fuel
parameter; every recursive call runs at one unit less.  Fuel exhaustion is
`Err.outOfFuel` (the Rust code simply keeps running); any `Err.fatal` is a
Rust `panic!`.  The environment stack is threaded explicitly (`&mut self`
in Rust). -/

/-- Parameter binding at a call (`Interpreter::call_function`): a fresh
frame containing only the bound parameters, built by `HashMap::insert`
over `params.zip(args)`. -/
def bindParams (params : List (String × Ty)) (args : List Value) : Frame :=
  (params.zip args).foldl (fun fr pv => frameInsert fr pv.1.1 pv.2) []

mutual

/-- `Interpreter::eval_expr`. -/
def evalExpr : Nat → List Function → Expr → EnvStack → Except Err (Value × EnvStack)
  | 0, _, _, _ => .error .outOfFuel
  | fuel+1, funcs, e, s =>
    match e with
    | .int n => .ok (.int n, s)
    | .bool b => .ok (.bool b, s)
    | .str str => .ok (.str str, s)
    | .var name =>
      match getVar s name with
      | some v => .ok (v, s)
      | none => .error (.fatal ("Undefined variable " ++ name))
    | .binary l op r =>
      match evalExpr fuel funcs l s with
      | .error err => .error err
      | .ok (lv, s1) =>
        match evalExpr fuel funcs r s1 with
        | .error err => .error err
        | .ok (rv, s2) =>
          match evalBin lv op rv with
          | .error err => .error err
          | .ok v => .ok (v, s2)
    | .listLiteral items =>
      match evalExprList fuel funcs items s with
      | .error err => .error err
      | .ok (vs, s1) => .ok (.list vs, s1)
    | .call callee args => evalCall fuel funcs callee args s

/-- Left-to-right evaluation of an argument/element list
(the `map`/`for` loops in `eval_call` and the list-literal arm). -/
def evalExprList : Nat → List Function → List Expr → EnvStack →
    Except Err (List Value × EnvStack)
  | 0, _, _, _ => .error .outOfFuel
  | fuel+1, funcs, es, s =>
    match es with
    | [] => .ok ([], s)
    | e :: rest =>
      match evalExpr fuel funcs e s with
      | .error err => .error err
      | .ok (v, s1) =>
        match evalExprList fuel funcs rest s1 with
        | .error err => .error err
        | .ok (vs, s2) => .ok (v :: vs, s2)

/-- `Interpreter::eval_call`: arguments first, then the builtin registry,
then the user-function table, otherwise the unknown-function panic. -/
def evalCall : Nat → List Function → String → List Expr → EnvStack →
    Except Err (Value × EnvStack)
  | 0, _, _, _, _ => .error .outOfFuel
  | fuel+1, funcs, callee, args, s =>
    match evalExprList fuel funcs args s with
    | .error err => .error err
    | .ok (vals, s1) =>
      match callBuiltin callee vals with
      | .error err => .error err
      | .ok (some v) => .ok (v, s1)
      | .ok none =>
        match findFunc funcs callee with
        | some f => callFunction fuel funcs f vals s1
        | none => .error (.fatal ("Unknown function " ++ callee))

/-- `Interpreter::call_function`: arity check, push the parameter frame,
run the body statements until the first escaping return, pop, and yield
the returned value (or `Unit` when no statement returned). -/
def callFunction : Nat → List Function → Function → List Value → EnvStack →
    Except Err (Value × EnvStack)
  | 0, _, _, _, _ => .error .outOfFuel
  | fuel+1, funcs, f, args, s =>
    if f.params.length ≠ args.length then
      .error (.fatal ("function " ++ f.name ++ " arity mismatch"))
    else
      match execStmts fuel funcs f.body (bindParams f.params args :: s) with
      | .error err => .error err
      | .ok (some v, s1) => .ok (v, popEnv s1)
      | .ok (none, s1) => .ok (.unit, popEnv s1)

/-- `Interpreter::exec_stmt`.  The result `some v` is an escaping
`return` in flight; `none` is ordinary completion. -/
def execStmt : Nat → List Function → Stmt → EnvStack →
    Except Err (Option Value × EnvStack)
  | 0, _, _, _ => .error .outOfFuel
  | fuel+1, funcs, stmt, s =>
    match stmt with
    | .varDecl name ty init =>
      match evalExpr fuel funcs init s with
      | .error err => .error err
      | .ok (v, s1) =>
        if valueMatchesType v ty then .ok (none, defineVar s1 name v)
        else .error (.fatal ("type error: variable " ++ name ++ " declared type mismatch"))
    | .exprStmt e =>
      match evalExpr fuel funcs e s with
      | .error err => .error err
      | .ok (_, s1) => .ok (none, s1)
    | .assign name e =>
      match evalExpr fuel funcs e s with
      | .error err => .error err
      | .ok (v, s1) =>
        match assignVar s1 name v with
        | some s2 => .ok (none, s2)
        | none => .error (.fatal ("assignment to undeclared variable " ++ name))
    | .ret eOpt =>
      match eOpt with
      | some e =>
        match evalExpr fuel funcs e s with
        | .error err => .error err
        | .ok (v, s1) => .ok (some v, s1)
      | none => .ok (some .unit, s)
    | .branch cond thenB elifs elseB =>
      match evalExpr fuel funcs cond s with
      | .error err => .error err
      | .ok (v, s1) =>
        match v with
        | .bool true => execBlock fuel funcs thenB s1
        | _ => execElifChain fuel funcs elifs elseB s1
    | .elseIfBranch _ _ => .error (.fatal "Unsupported statement")
    | .whileStmt cond body =>
      match evalExpr fuel funcs cond s with
      | .error err => .error err
      | .ok (v, s1) =>
        match v with
        | .bool true =>
          match execBlock fuel funcs body s1 with
          | .error err => .error err
          | .ok (some rv, s2) => .ok (some rv, s2)
          | .ok (none, s2) => execStmt fuel funcs (.whileStmt cond body) s2
        | .bool false => .ok (none, s1)
        | _ => .error (.fatal "while condition must be bool")
    | .forStmt init cond step body =>
      match init with
      | none =>
        match execForLoop fuel funcs cond step body (pushEnv s) with
        | .error err => .error err
        | .ok (r, s2) => .ok (r, popEnv s2)
      | some i =>
        match execStmt fuel funcs i (pushEnv s) with
        | .error err => .error err
        | .ok (_, s1) =>
          match execForLoop fuel funcs cond step body s1 with
          | .error err => .error err
          | .ok (r, s2) => .ok (r, popEnv s2)
    | .forEach varName iterExpr body =>
      match evalExpr fuel funcs iterExpr s with
      | .error err => .error err
      | .ok (iterable, s1) =>
        match iterable with
        | .int n =>
          if n < 0 then .error (.fatal "for-each over negative int is not supported")
          else
            match execForEachLoop fuel funcs varName
                ((List.range n.toNat).map (fun i => .int (Int.ofNat i))) body
                (pushEnv s1) with
            | .error err => .error err
            | .ok (r, s2) => .ok (r, popEnv s2)
        | .str strv =>
          match execForEachLoop fuel funcs varName
              (strv.data.map (fun c => .str c.toString)) body (pushEnv s1) with
          | .error err => .error err
          | .ok (r, s2) => .ok (r, popEnv s2)
        | .list items =>
          match execForEachLoop fuel funcs varName items body (pushEnv s1) with
          | .error err => .error err
          | .ok (r, s2) => .ok (r, popEnv s2)
        | _ => .error (.fatal "for-each can iterate only over int, string or list")

/-- The `elif` loop and `else` fallthrough of the `Stmt::Branch` arm:
each `elif` whose condition does not evaluate to `Bool(true)` falls
through to the next; a list element that is not an `ElseIfBranch` hits
the defensive panic; a non-empty `else` block runs last. -/
def execElifChain : Nat → List Function → List Stmt → List Stmt → EnvStack →
    Except Err (Option Value × EnvStack)
  | 0, _, _, _, _ => .error .outOfFuel
  | fuel+1, funcs, elifs, elseB, s =>
    match elifs with
    | [] =>
      match elseB with
      | [] => .ok (none, s)
      | _ => execBlock fuel funcs elseB s
    | b :: rest =>
      match b with
      | .elseIfBranch cond thenB =>
        match evalExpr fuel funcs cond s with
        | .error err => .error err
        | .ok (v, s1) =>
          match v with
          | .bool true => execBlock fuel funcs thenB s1
          | _ => execElifChain fuel funcs rest elseB s1
      | _ => .error (.fatal "non-ElseIfBranch inside else_if_branches")

/-- The `loop` of the `Stmt::For` arm: condition check (absent condition
counts as true), then `execForBody`. -/
def execForLoop : Nat → List Function → Option Expr → Option Stmt → List Stmt →
    EnvStack → Except Err (Option Value × EnvStack)
  | 0, _, _, _, _, _ => .error .outOfFuel
  | fuel+1, funcs, cond, step, body, s =>
    match cond with
    | some c =>
      match evalExpr fuel funcs c s with
      | .error err => .error err
      | .ok (v, s1) =>
        match v with
        | .bool true => execForBody fuel funcs cond step body s1
        | .bool false => .ok (none, s1)
        | _ => .error (.fatal "for condition must be bool")
    | none => execForBody fuel funcs cond step body s

/-- One C-style-for iteration: body (an escaping return stops the loop),
then the step statement with its return value discarded, then back to the
condition. -/
def execForBody : Nat → List Function → Option Expr → Option Stmt → List Stmt →
    EnvStack → Except Err (Option Value × EnvStack)
  | 0, _, _, _, _, _ => .error .outOfFuel
  | fuel+1, funcs, cond, step, body, s =>
    match execBlock fuel funcs body s with
    | .error err => .error err
    | .ok (some v, s1) => .ok (some v, s1)
    | .ok (none, s1) =>
      match step with
      | none => execForLoop fuel funcs cond step body s1
      | some st =>
        match execStmt fuel funcs st s1 with
        | .error err => .error err
        | .ok (_, s2) => execForLoop fuel funcs cond step body s2

/-- The iteration loops of the `Stmt::ForEach` arm, over the already
materialised items (`0..n`, the characters of a string, or the list
elements): redefine the bound variable in the shared loop frame, run the
body block, propagate an escaping return. -/
def execForEachLoop : Nat → List Function → String → List Value → List Stmt →
    EnvStack → Except Err (Option Value × EnvStack)
  | 0, _, _, _, _, _ => .error .outOfFuel
  | fuel+1, funcs, varName, items, body, s =>
    match items with
    | [] => .ok (none, s)
    | v :: rest =>
      match execBlock fuel funcs body (defineVar s varName v) with
      | .error err => .error err
      | .ok (some rv, s2) => .ok (some rv, s2)
      | .ok (none, s2) => execForEachLoop fuel funcs varName rest body s2

/-- The statement loop shared by `exec_block` and `call_function`: run
statements in order, stopping at the first escaping return. -/
def execStmts : Nat → List Function → List Stmt → EnvStack →
    Except Err (Option Value × EnvStack)
  | 0, _, _, _ => .error .outOfFuel
  | fuel+1, funcs, stmts, s =>
    match stmts with
    | [] => .ok (none, s)
    | st :: rest =>
      match execStmt fuel funcs st s with
      | .error err => .error err
      | .ok (some v, s1) => .ok (some v, s1)
      | .ok (none, s1) => execStmts fuel funcs rest s1

/-- `Interpreter::exec_block`: push a frame, run the statements, pop the
frame unconditionally, hand an escaping return outward. -/
def execBlock : Nat → List Function → List Stmt → EnvStack →
    Except Err (Option Value × EnvStack)
  | 0, _, _, _ => .error .outOfFuel
  | fuel+1, funcs, body, s =>
    match execStmts fuel funcs body (pushEnv s) with
    | .error err => .error err
    | .ok (r, s1) => .ok (r, popEnv s1)

end

/-- The top-level statement loop of `Interpreter::run`: each global
statement's return value is discarded (`let _ = self.exec_stmt(stmt)`). -/
def runStmts (fuel : Nat) (funcs : List Function) :
    List Stmt → EnvStack → Except Err EnvStack
  | [], s => .ok s
  | st :: rest, s =>
    match execStmt fuel funcs st s with
    | .error err => .error err
    | .ok (_, s1) => runStmts fuel funcs rest s1

/-- `Interpreter::run` on a fresh `Interpreter::new` (a single empty
global frame): register the program's functions, execute the global
statements, and return the final environment stack. -/
def runProgram (fuel : Nat) (p : Program) : Except Err EnvStack :=
  runStmts fuel p.functions p.stmts [[]]

/-! ## lexer.rs

The scanner walks a `Vec<char>` with a position index; here the remaining
input is the suffix list of characters (advancing the index = dropping the
head), which is the same state up to the already-consumed prefix.  Every
lexer `panic!` is an `Err.fatal`. -/

/-- Tokens (`lexer.rs::Token`). -/
inductive Token where
  | newline
  | eof
  | ident (s : String)
  | kwVar
  | kwMut
  | kwFunc
  | kwReturn
  | kwIf
  | kwElseIf
  | kwElse
  | kwFor
  | kwIn
  | kwTrue
  | kwFalse
  | kwWhile
  | intLiteral (n : Int)
  | strLiteral (s : String)
  | plus
  | minus
  | star
  | slash
  | percent
  | eq
  | eqEq
  | notEq
  | lt
  | ltEq
  | gt
  | gtEq
  | lparen
  | rparen
  | lbracket
  | rbracket
  | lbrace
  | rbrace
  | colon
  | semi
  | comma
deriving Repr, DecidableEq

/-- `Lexer::skip_spaces`: drop leading spaces and tabs (not newlines). -/
def skipSpaces : List Char → List Char
  | [] => []
  | c :: rest => if c = ' ' ∨ c = '\t' then skipSpaces rest else c :: rest

/-- The digit loop of `Lexer::lex_number` (maximal run of ASCII digits,
accumulated as the denoted number; `i64` overflow is not modelled). -/
def lexNumberAux (acc : Nat) : List Char → Nat × List Char
  | [] => (acc, [])
  | c :: rest =>
    if c.isDigit then lexNumberAux (acc * 10 + (c.toNat - '0'.toNat)) rest
    else (acc, c :: rest)

/-- `Lexer::lex_number`: the first digit has already been consumed. -/
def lexNumber (firstDigit : Char) (rest : List Char) : Token × List Char :=
  let (n, rest1) := lexNumberAux (firstDigit.toNat - '0'.toNat) rest
  (.intLiteral (Int.ofNat n), rest1)

/-- The accumulation loop of `Lexer::lex_ident_or_keyword` (maximal run of
ASCII alphanumerics and underscores). -/
def lexIdentAux (acc : String) : List Char → String × List Char
  | [] => (acc, [])
  | c :: rest =>
    if c.isAlphanum ∨ c = '_' then lexIdentAux (acc.push c) rest
    else (acc, c :: rest)

/-- The fixed keyword table of `Lexer::lex_ident_or_keyword`. -/
def keywordOrIdent (s : String) : Token :=
  match s with
  | "var" => .kwVar
  | "mut" => .kwMut
  | "func" => .kwFunc
  | "return" => .kwReturn
  | "if" => .kwIf
  | "elif" => .kwElseIf
  | "else" => .kwElse
  | "while" => .kwWhile
  | "for" => .kwFor
  | "in" => .kwIn
  | "true" => .kwTrue
  | "false" => .kwFalse
  | _ => .ident s

/-- `Lexer::lex_ident_or_keyword`: the first character has already been
consumed. -/
def lexIdentOrKeyword (firstChar : Char) (rest : List Char) : Token × List Char :=
  let (s, rest1) := lexIdentAux (String.singleton firstChar) rest
  (keywordOrIdent s, rest1)

/-- `Lexer::lex_string`: the opening quote has already been consumed.
A closing quote ends the literal; a raw newline is the fatal
"String literal not closed before newline" panic; the `while let` loop
simply ends at end-of-input, returning the accumulated `StrLiteral`. -/
def lexString (acc : String) : List Char → Except Err (Token × List Char)
  | [] => .ok (.strLiteral acc, [])
  | c :: rest =>
    if c = '"' then .ok (.strLiteral acc, rest)
    else if c = '\n' then .error (.fatal "String literal not closed before newline")
    else lexString (acc.push c) rest

/-- `Lexer::next_token`. -/
def nextToken (cs : List Char) : Except Err (Token × List Char) :=
  match skipSpaces cs with
  | [] => .ok (.eof, [])
  | c :: rest =>
    if c = '\n' then .ok (.newline, rest)
    else if c.isDigit then .ok (lexNumber c rest)
    else if c.isAlpha ∨ c = '_' then .ok (lexIdentOrKeyword c rest)
    else if c = '"' then lexString "" rest
    else
      match c with
      | '+' => .ok (.plus, rest)
      | '-' => .ok (.minus, rest)
      | '*' => .ok (.star, rest)
      | '/' => .ok (.slash, rest)
      | '%' => .ok (.percent, rest)
      | '{' => .ok (.lbrace, rest)
      | '}' => .ok (.rbrace, rest)
      | '(' => .ok (.lparen, rest)
      | ')' => .ok (.rparen, rest)
      | '[' => .ok (.lbracket, rest)
      | ']' => .ok (.rbracket, rest)
      | ':' => .ok (.colon, rest)
      | ';' => .ok (.semi, rest)
      | ',' => .ok (.comma, rest)
      | '=' =>
        match rest with
        | '=' :: rest2 => .ok (.eqEq, rest2)
        | _ => .ok (.eq, rest)
      | '!' =>
        match rest with
        | '=' :: rest2 => .ok (.notEq, rest2)
        | _ => .error (.fatal "Unexpected bang without equals")
      | '<' =>
        match rest with
        | '=' :: rest2 => .ok (.ltEq, rest2)
        | _ => .ok (.lt, rest)
      | '>' =>
        match rest with
        | '=' :: rest2 => .ok (.gtEq, rest2)
        | _ => .ok (.gt, rest)
      | _ => .error (.fatal "Unexpected character")

/-- Repeatedly pull tokens until `EOF`, the way the parser consumes the
scanner (fueled; the trailing `EOF` token is not kept in the list). -/
def tokenizeAux : Nat → List Char → Except Err (List Token)
  | 0, _ => .error .outOfFuel
  | fuel+1, cs =>
    match nextToken cs with
    | .error err => .error err
    | .ok (.eof, _) => .ok []
    | .ok (t, rest) =>
      match tokenizeAux fuel rest with
      | .error err => .error err
      | .ok ts => .ok (t :: ts)

/-- Tokenize a whole source string. -/
def tokenize (fuel : Nat) (src : String) : Except Err (List Token) :=
  tokenizeAux fuel src.data

/-! ## parser.rs (expression grammar)

`Parser` holds `current_token` plus the scanner it pulls further tokens
from; here the pending token stream is a list, and `pbump` mirrors
`Parser::bump` (an exhausted stream keeps yielding `EOF`, exactly as the
scanner does at end-of-input).  Embedded are the expression-grammar
productions `parse_primary`, `parse_factor`, `parse_call`, `parse_term`,
`parse_expr`, `parse_list_literal`. -/

structure ParserSt where
  current : Token
  rest : List Token
deriving Repr, DecidableEq

/-- `Parser::new`: take the first token off the stream. -/
def mkParser : List Token → ParserSt
  | [] => ⟨.eof, []⟩
  | t :: ts => ⟨t, ts⟩

/-- `Parser::bump`. -/
def pbump (p : ParserSt) : ParserSt := mkParser p.rest

mutual

/-- `Parser::parse_primary`. -/
def parsePrimary : Nat → ParserSt → Except Err (Expr × ParserSt)
  | 0, _ => .error .outOfFuel
  | fuel+1, p =>
    match p.current with
    | .intLiteral n => .ok (.int n, pbump p)
    | .strLiteral s => .ok (.str s, pbump p)
    | .kwTrue => .ok (.bool true, pbump p)
    | .kwFalse => .ok (.bool false, pbump p)
    | .ident name => .ok (.var name, pbump p)
    | .lparen =>
      match parseExpr fuel (pbump p) with
      | .error err => .error err
      | .ok (e, p1) =>
        if p1.current = .rparen then .ok (e, pbump p1)
        else .error (.fatal "expected rparen after parenthesized expression")
    | .lbracket => parseListLiteral fuel p
    | _ => .error (.fatal "unexpected token in primary expression")

/-- `Parser::parse_list_literal` (current token is `[`). -/
def parseListLiteral : Nat → ParserSt → Except Err (Expr × ParserSt)
  | 0, _ => .error .outOfFuel
  | fuel+1, p =>
    let p1 := pbump p
    if p1.current = .rbracket then .ok (.listLiteral [], pbump p1)
    else
      match parseExprCommaList fuel p1 with
      | .error err => .error err
      | .ok (items, p2) =>
        if p2.current = .rbracket then .ok (.listLiteral items, pbump p2)
        else .error (.fatal "expected rbracket at end of list literal")

/-- The comma-separated expression loop shared by `parse_call` and
`parse_list_literal`. -/
def parseExprCommaList : Nat → ParserSt → Except Err (List Expr × ParserSt)
  | 0, _ => .error .outOfFuel
  | fuel+1, p =>
    match parseExpr fuel p with
    | .error err => .error err
    | .ok (e, p1) =>
      if p1.current = .comma then
        match parseExprCommaList fuel (pbump p1) with
        | .error err => .error err
        | .ok (es, p2) => .ok (e :: es, p2)
      else .ok ([e], p1)

/-- `Parser::parse_call` (current token is `(`): only a bare identifier
is a valid callee. -/
def parseCall : Nat → Expr → ParserSt → Except Err (Expr × ParserSt)
  | 0, _, _ => .error .outOfFuel
  | fuel+1, calleeExpr, p =>
    match calleeExpr with
    | .var name =>
      let p1 := pbump p
      if p1.current = .rparen then .ok (.call name [], pbump p1)
      else
        match parseExprCommaList fuel p1 with
        | .error err => .error err
        | .ok (args, p2) =>
          if p2.current = .rparen then .ok (.call name args, pbump p2)
          else .error (.fatal "expected rparen at the end of the function call")
    | _ => .error (.fatal "can only call functions by name")

/-- `Parser::parse_factor`: a primary followed by any number of
call-suffixes. -/
def parseFactor : Nat → ParserSt → Except Err (Expr × ParserSt)
  | 0, _ => .error .outOfFuel
  | fuel+1, p =>
    match parsePrimary fuel p with
    | .error err => .error err
    | .ok (node, p1) => parseFactorLoop fuel node p1

/-- The call-suffix loop inside `parse_factor`. -/
def parseFactorLoop : Nat → Expr → ParserSt → Except Err (Expr × ParserSt)
  | 0, _, _ => .error .outOfFuel
  | fuel+1, node, p =>
    if p.current = .lparen then
      match parseCall fuel node p with
      | .error err => .error err
      | .ok (node2, p1) => parseFactorLoop fuel node2 p1
    else .ok (node, p)

/-- `Parser::parse_term`: factors chained by `*` and `/`. -/
def parseTerm : Nat → ParserSt → Except Err (Expr × ParserSt)
  | 0, _ => .error .outOfFuel
  | fuel+1, p =>
    match parseFactor fuel p with
    | .error err => .error err
    | .ok (node, p1) => parseTermLoop fuel node p1

/-- The `*`/`/` loop inside `parse_term` (left-associative). -/
def parseTermLoop : Nat → Expr → ParserSt → Except Err (Expr × ParserSt)
  | 0, _, _ => .error .outOfFuel
  | fuel+1, node, p =>
    match p.current with
    | .star =>
      match parseFactor fuel (pbump p) with
      | .error err => .error err
      | .ok (rhs, p1) => parseTermLoop fuel (.binary node .mul rhs) p1
    | .slash =>
      match parseFactor fuel (pbump p) with
      | .error err => .error err
      | .ok (rhs, p1) => parseTermLoop fuel (.binary node .div rhs) p1
    | _ => .ok (node, p)

/-- `Parser::parse_expr`: terms chained by `+ - == != < <= > >=`, all at
one flat left-associative level. -/
def parseExpr : Nat → ParserSt → Except Err (Expr × ParserSt)
  | 0, _ => .error .outOfFuel
  | fuel+1, p =>
    match parseTerm fuel p with
    | .error err => .error err
    | .ok (node, p1) => parseExprLoop fuel node p1

/-- The flat operator loop inside `parse_expr` (left-associative). -/
def parseExprLoop : Nat → Expr → ParserSt → Except Err (Expr × ParserSt)
  | 0, _, _ => .error .outOfFuel
  | fuel+1, node, p =>
    match
      (match p.current with
       | .plus => some BinOp.add
       | .minus => some BinOp.sub
       | .eqEq => some BinOp.eq
       | .notEq => some BinOp.notEq
       | .lt => some BinOp.lt
       | .ltEq => some BinOp.ltEq
       | .gt => some BinOp.gt
       | .gtEq => some BinOp.gtEq
       | _ => none) with
    | some op =>
      match parseTerm fuel (pbump p) with
      | .error err => .error err
      | .ok (rhs, p1) => parseExprLoop fuel (.binary node op rhs) p1
    | none => .ok (node, p)

end

/-- Scan a source string and parse it with `parse_expr`. -/
def parseExprFromSource (fuel : Nat) (src : String) : Except Err (Expr × ParserSt) :=
  match tokenize fuel src with
  | .error err => .error err
  | .ok ts => parseExpr fuel (mkParser ts)

/-! ## Helper lemmas -/

theorem push_append_mk (acc : String) (c : Char) (l : List Char) :
    (acc.push c) ++ String.mk l = acc ++ String.mk (c :: l) := by
  apply String.ext
  simp [String.push]

theorem append_mk_nil (acc : String) : acc ++ String.mk [] = acc := by
  apply String.ext
  simp

theorem find?_filter_ne (n name : String) (h : n ≠ name) (fr : Frame) :
    List.find? (fun p => p.1 == name) (fr.filter (fun p => p.1 != n)) =
      List.find? (fun p => p.1 == name) fr := by
  induction fr with
  | nil => rfl
  | cons p rest ih =>
    by_cases hpn : p.1 = n
    · have h1 : (p.1 != n) = false := by simp [hpn]
      have h2 : (p.1 == name) = false := by simp [hpn, h]
      simp [List.filter_cons, List.find?_cons, h1, h2, ih]
    · have h1 : (p.1 != n) = true := by simp [hpn]
      by_cases hq : p.1 = name
      · have h2 : (p.1 == name) = true := by simp [hq]
        simp [List.filter_cons, List.find?_cons, h1, h2]
      · have h2 : (p.1 == name) = false := by simp [hq]
        simp [List.filter_cons, List.find?_cons, h1, h2, ih]

theorem frameGet_insert_ne (fr : Frame) (n name : String) (v : Value)
    (h : n ≠ name) : frameGet (frameInsert fr n v) name = frameGet fr name := by
  have hn : (n == name) = false := by simp [h]
  simp only [frameGet, frameInsert, List.find?_cons, hn]
  rw [find?_filter_ne n name h fr]

theorem frameGet_foldl_insert (pvs : List ((String × Ty) × Value)) (fr : Frame)
    (name : String) (h : name ∉ pvs.map (fun pv => pv.1.1)) :
    frameGet (pvs.foldl (fun fr2 pv => frameInsert fr2 pv.1.1 pv.2) fr) name =
      frameGet fr name := by
  induction pvs generalizing fr with
  | nil => rfl
  | cons pv rest ih =>
    simp only [List.map, List.mem_cons, not_or] at h
    rw [List.foldl_cons, ih _ h.2, frameGet_insert_ne _ _ _ _ (fun e => h.1 e.symm)]

theorem defineVar_length (s : EnvStack) (n : String) (v : Value) :
    (defineVar s n v).length = s.length := by
  cases s <;> rfl

theorem assignVar_length (s : EnvStack) (n : String) (v : Value) :
    ∀ s', assignVar s n v = some s' → s'.length = s.length := by
  induction s with
  | nil => intro s' h; exact nomatch h
  | cons fr rest ih =>
    intro s' h
    simp only [assignVar] at h
    split at h
    · cases h
      rfl
    · cases ha : assignVar rest n v with
      | none => rw [ha] at h; cases h
      | some s2 =>
        rw [ha] at h
        cases h
        simp [ih s2 ha]

/-- Stack-length preservation, proved simultaneously for every mutually
recursive part of the evaluator: whenever a component returns `ok`, the
environment stack has exactly the length it started with — every frame
pushed along the way (block frames, loop frames, call frames) has been
popped again, ordinary completion and escaping `return` alike. -/
theorem env_length_master : ∀ fuel : Nat,
    (∀ funcs e s v s', evalExpr fuel funcs e s = .ok (v, s') →
      s'.length = s.length) ∧
    (∀ funcs es s vs s', evalExprList fuel funcs es s = .ok (vs, s') →
      s'.length = s.length) ∧
    (∀ funcs c args s v s', evalCall fuel funcs c args s = .ok (v, s') →
      s'.length = s.length) ∧
    (∀ funcs f args s v s', callFunction fuel funcs f args s = .ok (v, s') →
      s'.length = s.length) ∧
    (∀ funcs st s r s', execStmt fuel funcs st s = .ok (r, s') →
      s'.length = s.length) ∧
    (∀ funcs elifs elseB s r s', execElifChain fuel funcs elifs elseB s = .ok (r, s') →
      s'.length = s.length) ∧
    (∀ funcs cond step body s r s', execForLoop fuel funcs cond step body s = .ok (r, s') →
      s'.length = s.length) ∧
    (∀ funcs cond step body s r s', execForBody fuel funcs cond step body s = .ok (r, s') →
      s'.length = s.length) ∧
    (∀ funcs vn items body s r s',
      execForEachLoop fuel funcs vn items body s = .ok (r, s') →
      s'.length = s.length) ∧
    (∀ funcs stmts s r s', execStmts fuel funcs stmts s = .ok (r, s') →
      s'.length = s.length) ∧
    (∀ funcs body s r s', execBlock fuel funcs body s = .ok (r, s') →
      s'.length = s.length) := by
  intro fuel
  induction fuel with
  | zero =>
    refine ⟨?_, ?_, ?_, ?_, ?_, ?_, ?_, ?_, ?_, ?_, ?_⟩ <;>
      (intros; rename_i h; exact nomatch h)
  | succ n ih =>
    obtain ⟨ihE, ihEL, ihC, ihCF, ihSt, ihEC, ihFL, ihFB, ihFE, ihSs, ihB⟩ := ih
    refine ⟨?_, ?_, ?_, ?_, ?_, ?_, ?_, ?_, ?_, ?_, ?_⟩
    · -- evalExpr
      intro funcs e s v s' h
      cases e with
      | int m => cases h; rfl
      | bool b => cases h; rfl
      | str t => cases h; rfl
      | var name =>
        simp only [evalExpr] at h
        split at h
        · cases h; rfl
        · cases h
      | binary l op r =>
        simp only [evalExpr] at h
        split at h
        · cases h
        · rename_i heq1
          split at h
          · cases h
          · rename_i heq2
            split at h
            · cases h
            · cases h
              rw [ihE funcs r _ _ _ heq2, ihE funcs l _ _ _ heq1]
      | listLiteral items =>
        simp only [evalExpr] at h
        split at h
        · cases h
        · rename_i heq
          cases h
          exact ihEL funcs items _ _ _ heq
      | call callee args => exact ihC funcs callee args s v s' h
    · -- evalExprList
      intro funcs es s vs s' h
      cases es with
      | nil => cases h; rfl
      | cons e rest =>
        simp only [evalExprList] at h
        split at h
        · cases h
        · rename_i heq1
          split at h
          · cases h
          · rename_i heq2
            cases h
            rw [ihEL funcs rest _ _ _ heq2, ihE funcs e _ _ _ heq1]
    · -- evalCall
      intro funcs callee args s v s' h
      simp only [evalCall] at h
      split at h
      · cases h
      · rename_i heq1
        split at h
        · cases h
        · cases h
          exact ihEL funcs args _ _ _ heq1
        · split at h
          · rw [ihCF funcs _ _ _ _ _ h]
            exact ihEL funcs args _ _ _ heq1
          · cases h
    · -- callFunction
      intro funcs f args s v s' h
      simp only [callFunction] at h
      split at h
      · cases h
      · split at h
        · cases h
        · rename_i heq
          cases h
          have := ihSs funcs f.body (bindParams f.params args :: s) _ _ heq
          simp only [popEnv, List.length_cons, List.length_tail] at *
          omega
        · rename_i heq
          cases h
          have := ihSs funcs f.body (bindParams f.params args :: s) _ _ heq
          simp only [popEnv, List.length_cons, List.length_tail] at *
          omega
    · -- execStmt
      intro funcs st s r s' h
      cases st with
      | varDecl name ty init =>
        simp only [execStmt] at h
        split at h
        · cases h
        · rename_i heq
          split at h
          · cases h
            rw [defineVar_length]
            exact ihE funcs init _ _ _ heq
          · cases h
      | exprStmt e =>
        simp only [execStmt] at h
        split at h
        · cases h
        · rename_i heq
          cases h
          exact ihE funcs e _ _ _ heq
      | assign name e =>
        simp only [execStmt] at h
        split at h
        · cases h
        · rename_i heq
          split at h
          · rename_i heq2
            cases h
            rw [assignVar_length _ _ _ _ heq2]
            exact ihE funcs e _ _ _ heq
          · cases h
      | ret eOpt =>
        cases eOpt with
        | none => cases h; rfl
        | some e =>
          simp only [execStmt] at h
          split at h
          · cases h
          · rename_i heq
            cases h
            exact ihE funcs e _ _ _ heq
      | branch cond thenB elifs elseB =>
        simp only [execStmt] at h
        split at h
        · cases h
        · rename_i heq
          split at h
          · rw [ihB funcs thenB _ _ _ h]
            exact ihE funcs cond _ _ _ heq
          · rw [ihEC funcs elifs elseB _ _ _ h]
            exact ihE funcs cond _ _ _ heq
      | elseIfBranch cond thenB => cases h
      | whileStmt cond body =>
        simp only [execStmt] at h
        split at h
        · cases h
        · rename_i heq1
          split at h
          · split at h
            · cases h
            · rename_i heq2
              cases h
              rw [ihB funcs body _ _ _ heq2]
              exact ihE funcs cond _ _ _ heq1
            · rename_i heq2
              rw [ihSt funcs _ _ _ _ h, ihB funcs body _ _ _ heq2]
              exact ihE funcs cond _ _ _ heq1
          · cases h
            exact ihE funcs cond _ _ _ heq1
          · cases h
      | forStmt init cond step body =>
        simp only [execStmt] at h
        split at h
        · split at h
          · cases h
          · rename_i heq2
            cases h
            have := ihFL funcs cond step body (pushEnv s) _ _ heq2
            simp only [popEnv, pushEnv, List.length_cons, List.length_tail] at *
            omega
        · split at h
          · cases h
          · rename_i heq2
            split at h
            · cases h
            · rename_i heq3
              cases h
              have h1 := ihSt funcs _ (pushEnv s) _ _ heq2
              have h2 := ihFL funcs cond step body _ _ _ heq3
              simp only [popEnv, pushEnv, List.length_cons, List.length_tail] at *
              omega
      | forEach varName iterExpr body =>
        simp only [execStmt] at h
        split at h
        · cases h
        · rename_i heq1
          split at h
          · split at h
            · cases h
            · split at h
              · cases h
              · rename_i heq2
                cases h
                have h1 := ihE funcs iterExpr _ _ _ heq1
                have h2 := ihFE funcs varName _ body _ _ _ heq2
                simp only [popEnv, pushEnv, List.length_cons, List.length_tail] at *
                omega
          · split at h
            · cases h
            · rename_i heq2
              cases h
              have h1 := ihE funcs iterExpr _ _ _ heq1
              have h2 := ihFE funcs varName _ body _ _ _ heq2
              simp only [popEnv, pushEnv, List.length_cons, List.length_tail] at *
              omega
          · split at h
            · cases h
            · rename_i heq2
              cases h
              have h1 := ihE funcs iterExpr _ _ _ heq1
              have h2 := ihFE funcs varName _ body _ _ _ heq2
              simp only [popEnv, pushEnv, List.length_cons, List.length_tail] at *
              omega
          · cases h
    · -- execElifChain
      intro funcs elifs elseB s r s' h
      cases elifs with
      | nil =>
        cases elseB with
        | nil => cases h; rfl
        | cons b rest => exact ihB funcs (b :: rest) s r s' h
      | cons b rest =>
        simp only [execElifChain] at h
        split at h
        · split at h
          · cases h
          · rename_i heq
            split at h
            · rw [ihB funcs _ _ _ _ h]
              exact ihE funcs _ _ _ _ heq
            · rw [ihEC funcs rest elseB _ _ _ h]
              exact ihE funcs _ _ _ _ heq
        · cases h
    · -- execForLoop
      intro funcs cond step body s r s' h
      cases cond with
      | none => exact ihFB funcs none step body s r s' h
      | some c =>
        simp only [execForLoop] at h
        split at h
        · cases h
        · rename_i heq
          split at h
          · rw [ihFB funcs _ step body _ _ _ h]
            exact ihE funcs c _ _ _ heq
          · cases h
            exact ihE funcs c _ _ _ heq
          · cases h
    · -- execForBody
      intro funcs cond step body s r s' h
      simp only [execForBody] at h
      split at h
      · cases h
      · rename_i heq
        cases h
        exact ihB funcs body _ _ _ heq
      · rename_i heq1
        split at h
        · rw [ihFL funcs cond _ body _ _ _ h]
          exact ihB funcs body _ _ _ heq1
        · split at h
          · cases h
          · rename_i heq2
            rw [ihFL funcs cond _ body _ _ _ h, ihSt funcs _ _ _ _ heq2]
            exact ihB funcs body _ _ _ heq1
    · -- execForEachLoop
      intro funcs vn items body s r s' h
      cases items with
      | nil => cases h; rfl
      | cons v rest =>
        simp only [execForEachLoop] at h
        split at h
        · cases h
        · rename_i heq
          cases h
          rw [ihB funcs body _ _ _ heq, defineVar_length]
        · rename_i heq
          rw [ihFE funcs vn rest body _ _ _ h, ihB funcs body _ _ _ heq,
            defineVar_length]
    · -- execStmts
      intro funcs stmts s r s' h
      cases stmts with
      | nil => cases h; rfl
      | cons st rest =>
        simp only [execStmts] at h
        split at h
        · cases h
        · rename_i heq
          cases h
          exact ihSt funcs st _ _ _ heq
        · rename_i heq
          rw [ihSs funcs rest _ _ _ h, ihSt funcs st _ _ _ heq]
    · -- execBlock
      intro funcs body s r s' h
      simp only [execBlock] at h
      split at h
      · cases h
      · rename_i heq
        cases h
        have := ihSs funcs body (pushEnv s) _ _ heq
        simp only [popEnv, pushEnv, List.length_cons, List.length_tail] at *
        omega

/-! ## Claims -/

/-- Claim C9 (confirmed): on Str operands the comparison operators of
`Interpreter::eval_bin` compare string lengths (`String::len`, modelled as
`String.utf8ByteSize`), not lexicographic order: `a < b` is `Bool(true)`
exactly when the length of `a` is below the length of `b`, and in
particular `"ab" < "abc"` evaluates to `Bool(true)`. -/
theorem c9_str_compare_by_length :
    (∀ a b : String,
      evalBin (.str a) .lt (.str b) =
        .ok (.bool (decide (a.utf8ByteSize < b.utf8ByteSize))) ∧
      evalBin (.str a) .ltEq (.str b) =
        .ok (.bool (decide (a.utf8ByteSize ≤ b.utf8ByteSize))) ∧
      evalBin (.str a) .gt (.str b) =
        .ok (.bool (decide (a.utf8ByteSize > b.utf8ByteSize))) ∧
      evalBin (.str a) .gtEq (.str b) =
        .ok (.bool (decide (a.utf8ByteSize ≥ b.utf8ByteSize)))) ∧
    evalBin (.str "ab") .lt (.str "abc") = .ok (.bool true) :=
  ⟨fun _ _ => ⟨rfl, rfl, rfl, rfl⟩, rfl⟩

/-- Claim C8 (confirmed): `*` and `/` bind tighter than `+`, `-` and the
comparison operators, which share one flat left-associative level in
`parse_expr`: the source `1 + 2 * 3` scans to the expected token list,
parses to `1 + (2 * 3)`, and evaluates to `Int(7)`; for all integer
literals, `a + b * c` parses to `a + (b * c)`, `a * b + c` to
`(a * b) + c`, and `a < b + c` to `(a < b) + c` (one flat level). -/
theorem c8_precedence :
    tokenize 40 "1 + 2 * 3" =
      .ok [.intLiteral 1, .plus, .intLiteral 2, .star, .intLiteral 3] ∧
    parseExprFromSource 40 "1 + 2 * 3" =
      .ok (.binary (.int 1) .add (.binary (.int 2) .mul (.int 3)), ⟨.eof, []⟩) ∧
    evalExpr 10 [] (.binary (.int 1) .add (.binary (.int 2) .mul (.int 3))) [[]] =
      .ok (.int 7, [[]]) ∧
    (∀ a b c : Int,
      parseExpr 9 (mkParser [.intLiteral a, .plus, .intLiteral b, .star, .intLiteral c]) =
        .ok (.binary (.int a) .add (.binary (.int b) .mul (.int c)), ⟨.eof, []⟩) ∧
      parseExpr 9 (mkParser [.intLiteral a, .star, .intLiteral b, .plus, .intLiteral c]) =
        .ok (.binary (.binary (.int a) .mul (.int b)) .add (.int c), ⟨.eof, []⟩) ∧
      parseExpr 9 (mkParser [.intLiteral a, .lt, .intLiteral b, .plus, .intLiteral c]) =
        .ok (.binary (.binary (.int a) .lt (.int b)) .add (.int c), ⟨.eof, []⟩)) :=
  ⟨rfl, rfl, rfl, fun _ _ _ => ⟨rfl, rfl, rfl⟩⟩

/-- Claim C3 (corrected): the builtin registry does NOT recognize `sum`:
`call_builtin` returns "not recognized" for every `sum` call, so the
evaluator falls through to user-defined functions — a user-defined `sum`
is called, and with no user definition the call is a fatal
unknown-function error, never an Int total. -/
theorem c3_sum_not_builtin :
    (∀ args : List Value, callBuiltin "sum" args = .ok none) ∧
    evalExpr 10 [⟨"sum", [("xs", .list)], [.ret (some (.int 99))]⟩]
        (.call "sum" [.listLiteral [.int 1, .int 2]]) [[]] =
      .ok (.int 99, [[]]) ∧
    evalExpr 10 [] (.call "sum" [.listLiteral [.int 1, .int 2]]) [[]] =
      .error (.fatal "Unknown function sum") :=
  ⟨fun _ => rfl, rfl, rfl⟩

/-- Counterexample to C3 as stated: on a List-of-Int argument the builtin
registry answers "not recognized" (`None`) instead of handling the call. -/
theorem c3_counterexample :
    callBuiltin "sum" [.list [.int 1, .int 2, .int 3]] = .ok none := rfl

/-- Claim C4 (corrected): the `range` builtin accepts exactly ONE Int
argument: `range(n)` with `n ≥ 0` yields `[0..n-1]` and negative `n` is
fatal, but EVERY two-argument call — `range(2, 5)` included — is a fatal
argument-count error rather than `[a..b-1]`. -/
theorem c4_range_one_argument :
    (∀ n : Int, 0 ≤ n →
      callBuiltin "range" [.int n] =
        .ok (some (.list ((List.range n.toNat).map (fun i => .int (Int.ofNat i)))))) ∧
    (∀ n : Int, n < 0 →
      callBuiltin "range" [.int n] = .error (.fatal "range(n): n must be >= 0")) ∧
    (∀ a b : Value,
      callBuiltin "range" [a, b] =
        .error (.fatal "range(n) expects exactly 1 argument")) := by
  have h0 : ∀ n : Int, callBuiltin "range" [.int n] =
      if n < 0 then .error (.fatal "range(n): n must be >= 0")
      else .ok (some (.list ((List.range n.toNat).map (fun i => .int (Int.ofNat i))))) :=
    fun _ => rfl
  refine ⟨fun n hn => ?_, fun n hn => ?_, fun a b => rfl⟩
  · rw [h0, if_neg (by omega)]
  · rw [h0, if_pos hn]

/-- Witness for C4 at concrete inputs. -/
theorem c4_witness :
    callBuiltin "range" [.int 3] =
      .ok (some (.list ((List.range (Int.toNat 3)).map (fun i => .int (Int.ofNat i))))) ∧
    callBuiltin "range" [.int (-1)] = .error (.fatal "range(n): n must be >= 0") ∧
    callBuiltin "range" [.int 2, .int 5] =
      .error (.fatal "range(n) expects exactly 1 argument") :=
  ⟨c4_range_one_argument.1 3 (by decide), c4_range_one_argument.2.1 (-1) (by decide),
   c4_range_one_argument.2.2 (.int 2) (.int 5)⟩

/-- Counterexample to C4 as stated: `range(2, 5)` is a fatal
argument-count error, not the List `[2, 3, 4]`. -/
theorem c4_counterexample :
    callBuiltin "range" [.int 2, .int 5] =
      .error (.fatal "range(n) expects exactly 1 argument") := rfl

/-- Claim C5 (corrected): a raw newline inside an unterminated string
literal is a fatal lexical error, but a literal still open at end-of-input
is NOT: `lex_string`'s loop simply ends and the scanner returns a
`StrLiteral` token holding the characters read so far. -/
theorem c5_unterminated_string :
    (∀ cs : List Char, '"' ∉ cs → '\n' ∉ cs →
      ∀ acc : String, lexString acc cs = .ok (.strLiteral (acc ++ String.mk cs), [])) ∧
    (∀ pre : List Char, '"' ∉ pre → '\n' ∉ pre →
      ∀ (rest : List Char) (acc : String),
        lexString acc (pre ++ '\n' :: rest) =
          .error (.fatal "String literal not closed before newline")) ∧
    (∀ cs : List Char, nextToken ('"' :: cs) = lexString "" cs) := by
  refine ⟨?_, ?_, fun _ => rfl⟩
  · intro cs
    induction cs with
    | nil => intro _ _ acc; simp [lexString, append_mk_nil]
    | cons c rest ih =>
      intro hq hn acc
      simp only [List.mem_cons, not_or] at hq hn
      have hcq : ¬ c = '"' := fun e => hq.1 e.symm
      have hcn : ¬ c = '\n' := fun e => hn.1 e.symm
      simp only [lexString, if_neg hcq, if_neg hcn]
      rw [ih hq.2 hn.2 (acc.push c), push_append_mk]
  · intro pre
    induction pre with
    | nil => intro _ _ rest acc; simp [lexString]
    | cons c rest ih =>
      intro hq hn rest2 acc
      simp only [List.mem_cons, not_or] at hq hn
      have hcq : ¬ c = '"' := fun e => hq.1 e.symm
      have hcn : ¬ c = '\n' := fun e => hn.1 e.symm
      simp only [List.cons_append, lexString, if_neg hcq, if_neg hcn]
      exact ih hq.2 hn.2 rest2 (acc.push c)

/-- Witness for C5 at concrete inputs. -/
theorem c5_witness :
    lexString "" ['a', 'b'] = .ok (.strLiteral ("" ++ String.mk ['a', 'b']), []) ∧
    lexString "" (['a'] ++ '\n' :: ['b']) =
      .error (.fatal "String literal not closed before newline") :=
  ⟨c5_unterminated_string.1 ['a', 'b'] (by decide) (by decide) "",
   c5_unterminated_string.2.1 ['a'] (by decide) (by decide) ['b'] ""⟩

/-- Counterexample to C5 as stated: scanning the input consisting of a
double-quote followed by `abc` and end-of-input returns the token
`StrLiteral "abc"` — no fatal error for the unterminated literal. -/
theorem c5_counterexample :
    nextToken ['"', 'a', 'b', 'c'] = .ok (.strLiteral "abc", []) := rfl

/-- Claim C1 (corrected): a call does push a fresh frame containing only
the bound parameters, but `get_var` searches the ENTIRE environment stack
innermost-to-outermost, so a body variable that is neither a parameter nor
locally bound resolves to the caller's (or global) binding when one
exists; the fatal undefined-variable error happens only when NO frame on
the stack binds the name.  Functions do see the caller's locals. -/
theorem c1_call_scoping :
    (∀ (params : List (String × Ty)) (args : List Value) (name : String),
      name ∉ (params.zip args).map (fun pv => pv.1.1) →
      frameGet (bindParams params args) name = none) ∧
    (∀ (fuel : Nat) (funcs : List Function) (nm name : String) (v : Value) (s : EnvStack),
      getVar s name = some v →
      callFunction (fuel + 4) funcs ⟨nm, [], [.ret (some (.var name))]⟩ [] s =
        .ok (v, s)) ∧
    (∀ (fuel : Nat) (funcs : List Function) (nm name : String) (s : EnvStack),
      getVar s name = none →
      callFunction (fuel + 4) funcs ⟨nm, [], [.ret (some (.var name))]⟩ [] s =
        .error (.fatal ("Undefined variable " ++ name))) := by
  have e1 : ∀ (fuel : Nat) (funcs : List Function) (nm name : String) (s : EnvStack),
      callFunction (fuel + 4) funcs ⟨nm, [], [.ret (some (.var name))]⟩ [] s =
        match getVar s name with
        | some v => .ok (v, s)
        | none => .error (.fatal ("Undefined variable " ++ name)) := by
    intro fuel funcs nm name s
    simp only [callFunction, execStmts, execStmt, evalExpr, getVar, frameGet,
      List.find?_nil, Option.map_none, bindParams, List.zip_nil_right, List.foldl_nil]
    cases hg : getVar s name <;> simp [popEnv, getVar]
  refine ⟨fun params args name h => ?_, fun fuel funcs nm name v s h => ?_,
    fun fuel funcs nm name s h => ?_⟩
  · exact (frameGet_foldl_insert (params.zip args) [] name h).trans rfl
  · rw [e1, h]
  · rw [e1, h]

/-- Witness for C1 at concrete inputs. -/
theorem c1_witness :
    frameGet (bindParams [("a", Ty.int)] [Value.int 1]) "x" = none ∧
    callFunction 4 [] ⟨"f", [], [.ret (some (.var "y"))]⟩ [] [[("y", .int 5)]] =
      .ok (.int 5, [[("y", .int 5)]]) ∧
    callFunction 4 [] ⟨"f", [], [.ret (some (.var "z"))]⟩ [] [[]] =
      .error (.fatal ("Undefined variable " ++ "z")) :=
  ⟨c1_call_scoping.1 [("a", Ty.int)] [Value.int 1] "x" (by decide),
   c1_call_scoping.2.1 0 [] "f" "y" (.int 5) [[("y", .int 5)]] rfl,
   c1_call_scoping.2.2 0 [] "f" "z" [[]] rfl⟩

/-- Counterexample to C1 as stated: the caller holds a local `x = 42`; the
zero-parameter function `f` returns `x`, which is neither a parameter nor
bound by the body — yet the call succeeds with `Int(42)` resolved from the
caller's local frame instead of aborting with an undefined-variable
error. -/
theorem c1_counterexample :
    callFunction 10 [] ⟨"f", [], [.ret (some (.var "x"))]⟩ [] [[("x", .int 42)], []] =
      .ok (.int 42, [[("x", .int 42)], []]) := rfl

/-- Claim C2 (corrected): a `while` condition evaluating to a non-Bool
value is the fatal "while condition must be bool" panic, but an `if`
condition evaluating to a non-Bool value is NOT an error: `Stmt::Branch`
matches only `Bool(true)`, so any other value silently skips the then
branch and falls through to the elif/else chain exactly as if the
condition were false. -/
theorem c2_condition_typing :
    (∀ (fuel : Nat) (funcs : List Function) (cond : Expr) (body : List Stmt)
        (s s1 : EnvStack) (v : Value),
      evalExpr fuel funcs cond s = .ok (v, s1) → v.isBool = false →
      execStmt (fuel + 1) funcs (.whileStmt cond body) s =
        .error (.fatal "while condition must be bool")) ∧
    (∀ (fuel : Nat) (funcs : List Function) (cond : Expr)
        (thenB elifs elseB : List Stmt) (s s1 : EnvStack) (v : Value),
      evalExpr fuel funcs cond s = .ok (v, s1) → v.isBool = false →
      execStmt (fuel + 1) funcs (.branch cond thenB elifs elseB) s =
        execElifChain fuel funcs elifs elseB s1) := by
  constructor
  · intro fuel funcs cond body s s1 v h hv
    have e : execStmt (fuel + 1) funcs (.whileStmt cond body) s =
        match evalExpr fuel funcs cond s with
        | .error err => .error err
        | .ok (v, s1) =>
          match v with
          | .bool true =>
            match execBlock fuel funcs body s1 with
            | .error err => .error err
            | .ok (some rv, s2) => .ok (some rv, s2)
            | .ok (none, s2) => execStmt fuel funcs (.whileStmt cond body) s2
          | .bool false => .ok (none, s1)
          | _ => .error (.fatal "while condition must be bool") := rfl
    rw [e, h]
    cases v with
    | bool b => simp [Value.isBool] at hv
    | int n => rfl
    | str s2 => rfl
    | list l => rfl
    | unit => rfl
  · intro fuel funcs cond thenB elifs elseB s s1 v h hv
    have e : execStmt (fuel + 1) funcs (.branch cond thenB elifs elseB) s =
        match evalExpr fuel funcs cond s with
        | .error err => .error err
        | .ok (v, s1) =>
          match v with
          | .bool true => execBlock fuel funcs thenB s1
          | _ => execElifChain fuel funcs elifs elseB s1 := rfl
    rw [e, h]
    cases v with
    | bool b => simp [Value.isBool] at hv
    | int n => rfl
    | str s2 => rfl
    | list l => rfl
    | unit => rfl

/-- Witness for C2 at concrete inputs. -/
theorem c2_witness :
    execStmt 2 [] (.whileStmt (.int 0) []) [[]] =
      .error (.fatal "while condition must be bool") ∧
    execStmt 2 [] (.branch (.str "s") [] [] []) [[]] = execElifChain 1 [] [] [] [[]] :=
  ⟨c2_condition_typing.1 1 [] (.int 0) [] [[]] [[]] (.int 0) rfl rfl,
   c2_condition_typing.2 1 [] (.str "s") [] [] [] [[]] [[]] (.str "s") rfl rfl⟩

/-- Counterexample to C2 as stated: an `if` whose condition evaluates to
`Int(7)` neither aborts nor runs the then branch — it silently falls
through to the `else` branch and returns its value. -/
theorem c2_counterexample :
    execStmt 10 [] (.branch (.int 7) [.ret (some (.int 1))] [] [.ret (some (.int 2))]) [[]] =
      .ok (some (.int 2), [[]]) := rfl

/-- Claim C6 (confirmed): a `return` escaping a while-loop body ends the
loop at once with that value; the statement loop re-propagates an
escaping return unchanged without touching later statements; a concrete
function returning from inside `while true` yields the returned value,
skipping the statement after the loop; and a function whose body never
returns yields `Unit`. -/
theorem c6_return_through_while :
    (∀ (fuel : Nat) (funcs : List Function) (cond : Expr) (body : List Stmt)
        (s s1 s2 : EnvStack) (rv : Value),
      evalExpr fuel funcs cond s = .ok (.bool true, s1) →
      execBlock fuel funcs body s1 = .ok (some rv, s2) →
      execStmt (fuel + 1) funcs (.whileStmt cond body) s = .ok (some rv, s2)) ∧
    (∀ (fuel : Nat) (funcs : List Function) (st : Stmt) (rest : List Stmt)
        (s s1 : EnvStack) (v : Value),
      execStmt fuel funcs st s = .ok (some v, s1) →
      execStmts (fuel + 1) funcs (st :: rest) s = .ok (some v, s1)) ∧
    callFunction 20 []
        ⟨"f", [], [.whileStmt (.bool true) [.ret (some (.int 7))], .ret (some (.int 0))]⟩
        [] [[]] =
      .ok (.int 7, [[]]) ∧
    callFunction 5 [] ⟨"g", [], [.exprStmt (.int 1)]⟩ [] [[]] = .ok (.unit, [[]]) := by
  refine ⟨?_, ?_, rfl, rfl⟩
  · intro fuel funcs cond body s s1 s2 rv hcond hblock
    have e : execStmt (fuel + 1) funcs (.whileStmt cond body) s =
        match evalExpr fuel funcs cond s with
        | .error err => .error err
        | .ok (v, s1) =>
          match v with
          | .bool true =>
            match execBlock fuel funcs body s1 with
            | .error err => .error err
            | .ok (some rv, s2) => .ok (some rv, s2)
            | .ok (none, s2) => execStmt fuel funcs (.whileStmt cond body) s2
          | .bool false => .ok (none, s1)
          | _ => .error (.fatal "while condition must be bool") := rfl
    rw [e, hcond]
    show (match execBlock fuel funcs body s1 with
          | Except.error err => Except.error err
          | Except.ok (some rv2, s3) => Except.ok (some rv2, s3)
          | Except.ok (none, s3) => execStmt fuel funcs (.whileStmt cond body) s3) =
        Except.ok (some rv, s2)
    rw [hblock]
  · intro fuel funcs st rest s s1 v h
    have e : execStmts (fuel + 1) funcs (st :: rest) s =
        match execStmt fuel funcs st s with
        | .error err => .error err
        | .ok (some v, s1) => .ok (some v, s1)
        | .ok (none, s1) => execStmts fuel funcs rest s1 := rfl
    rw [e, h]

/-- Witness for C6 at concrete inputs. -/
theorem c6_witness :
    execStmt 6 [] (.whileStmt (.bool true) [.ret (some (.int 7))]) [[]] =
      .ok (some (.int 7), [[]]) ∧
    execStmts 3 [] [.ret (some (.int 3)), .exprStmt (.int 0)] [[]] =
      .ok (some (.int 3), [[]]) :=
  ⟨c6_return_through_while.1 5 [] (.bool true) [.ret (some (.int 7))] [[]] [[]] [[]]
      (.int 7) rfl rfl,
   c6_return_through_while.2.1 2 [] (.ret (some (.int 3))) [.exprStmt (.int 0)] [[]] [[]]
      (.int 3) rfl⟩

/-- Claim C7 (confirmed): environment pushes and pops are strictly
paired.  Every statement execution and block execution that completes —
ordinary completion and propagating `return` alike — leaves the
environment stack exactly as long as it was; the top-level statement loop
preserves the length too; and a whole-program run starting from the fresh
single-frame interpreter ends with exactly that one global frame (so the
stack is never empty at any statement boundary, and the global frame
persists for the whole run). -/
theorem c7_frame_pairing :
    (∀ (fuel : Nat) (funcs : List Function) (st : Stmt) (s : EnvStack)
        (r : Option Value) (s' : EnvStack),
      execStmt fuel funcs st s = .ok (r, s') → s'.length = s.length) ∧
    (∀ (fuel : Nat) (funcs : List Function) (body : List Stmt) (s : EnvStack)
        (r : Option Value) (s' : EnvStack),
      execBlock fuel funcs body s = .ok (r, s') → s'.length = s.length) ∧
    (∀ (fuel : Nat) (funcs : List Function) (stmts : List Stmt) (s s' : EnvStack),
      runStmts fuel funcs stmts s = .ok s' → s'.length = s.length) ∧
    (∀ (fuel : Nat) (p : Program) (s' : EnvStack),
      runProgram fuel p = .ok s' → s'.length = 1) := by
  have hrun : ∀ (fuel : Nat) (funcs : List Function) (stmts : List Stmt) (s s' : EnvStack),
      runStmts fuel funcs stmts s = .ok s' → s'.length = s.length := by
    intro fuel funcs stmts
    induction stmts with
    | nil => intro s s' h; cases h; rfl
    | cons st rest ih =>
      intro s s' h
      simp only [runStmts] at h
      split at h
      · cases h
      · rename_i heq
        rw [ih _ _ h, (env_length_master fuel).2.2.2.2.1 funcs st _ _ _ heq]
  refine ⟨fun fuel => (env_length_master fuel).2.2.2.2.1,
    fun fuel => (env_length_master fuel).2.2.2.2.2.2.2.2.2.2, hrun,
    fun fuel p s' h => (hrun fuel p.functions p.stmts [[]] s' h).trans rfl⟩

/-- Witness for C7 at concrete inputs. -/
theorem c7_witness :
    (([[("y", Value.int 2)]] : EnvStack).length = ([[]] : EnvStack).length) ∧
    (([[("x", Value.int 1)]] : EnvStack).length = 1) :=
  ⟨c7_frame_pairing.1 3 [] (.varDecl "y" .int (.int 2)) [[]] none [[("y", .int 2)]] rfl,
   c7_frame_pairing.2.2.2 50 ⟨[], [.varDecl "x" .int (.int 1), .exprStmt (.var "x")]⟩
     [[("x", .int 1)]] rfl⟩

/-- Every `Stmt::Return(Some e)` and `Stmt::ExprStmt(e)` leave the
interpreter in the same state (both just evaluate `e`); they differ only
in the escaping-return flag. -/
theorem retStmt_state_eq (fuel : Nat) (funcs : List Function) (e : Expr) (s : EnvStack) :
    (execStmt fuel funcs (.ret (some e)) s).map (fun r => r.2) =
      (execStmt fuel funcs (.exprStmt e) s).map (fun r => r.2) := by
  cases fuel with
  | zero => rfl
  | succ n =>
    have e1 : execStmt (n + 1) funcs (.ret (some e)) s =
        match evalExpr n funcs e s with
        | .error err => .error err
        | .ok (v, s1) => .ok (some v, s1) := rfl
    have e2 : execStmt (n + 1) funcs (.exprStmt e) s =
        match evalExpr n funcs e s with
        | .error err => .error err
        | .ok (_, s1) => .ok (none, s1) := rfl
    rw [e1, e2]
    cases evalExpr n funcs e s with
    | error err => rfl
    | ok p => obtain ⟨v, s1⟩ := p; rfl

/-- The C-style-for iteration loops are insensitive to whether the step
clause is `return e` or the bare expression statement `e`. -/
theorem forLoop_stepRet_eq (fuel : Nat) (funcs : List Function) :
    ∀ (cond : Option Expr) (body : List Stmt) (e : Expr) (s : EnvStack),
      (execForLoop fuel funcs cond (some (.ret (some e))) body s =
        execForLoop fuel funcs cond (some (.exprStmt e)) body s) ∧
      (execForBody fuel funcs cond (some (.ret (some e))) body s =
        execForBody fuel funcs cond (some (.exprStmt e)) body s) := by
  induction fuel with
  | zero => intro cond body e s; exact ⟨rfl, rfl⟩
  | succ n ih =>
    intro cond body e s
    constructor
    · cases cond with
      | none => exact (ih none body e s).2
      | some c =>
        have e1 : execForLoop (n + 1) funcs (some c) (some (.ret (some e))) body s =
            match evalExpr n funcs c s with
            | .error err => .error err
            | .ok (v, s1) =>
              match v with
              | .bool true => execForBody n funcs (some c) (some (.ret (some e))) body s1
              | .bool false => .ok (none, s1)
              | _ => .error (.fatal "for condition must be bool") := rfl
        have e2 : execForLoop (n + 1) funcs (some c) (some (.exprStmt e)) body s =
            match evalExpr n funcs c s with
            | .error err => .error err
            | .ok (v, s1) =>
              match v with
              | .bool true => execForBody n funcs (some c) (some (.exprStmt e)) body s1
              | .bool false => .ok (none, s1)
              | _ => .error (.fatal "for condition must be bool") := rfl
        rw [e1, e2]
        cases evalExpr n funcs c s with
        | error err => rfl
        | ok p =>
          obtain ⟨v, s1⟩ := p
          cases v with
          | bool b => cases b with
            | true => exact (ih (some c) body e s1).2
            | false => rfl
          | int m => rfl
          | str t => rfl
          | list l => rfl
          | unit => rfl
    · have e1 : execForBody (n + 1) funcs cond (some (.ret (some e))) body s =
          match execBlock n funcs body s with
          | .error err => .error err
          | .ok (some v, s1) => .ok (some v, s1)
          | .ok (none, s1) =>
            match execStmt n funcs (.ret (some e)) s1 with
            | .error err => .error err
            | .ok (_, s2) => execForLoop n funcs cond (some (.ret (some e))) body s2 := rfl
      have e2 : execForBody (n + 1) funcs cond (some (.exprStmt e)) body s =
          match execBlock n funcs body s with
          | .error err => .error err
          | .ok (some v, s1) => .ok (some v, s1)
          | .ok (none, s1) =>
            match execStmt n funcs (.exprStmt e) s1 with
            | .error err => .error err
            | .ok (_, s2) => execForLoop n funcs cond (some (.exprStmt e)) body s2 := rfl
      rw [e1, e2]
      cases execBlock n funcs body s with
      | error err => rfl
      | ok p =>
        obtain ⟨r, s1⟩ := p
        cases r with
        | some v => rfl
        | none =>
          show (match execStmt n funcs (.ret (some e)) s1 with
                | Except.error err => Except.error err
                | Except.ok (_, s2) => execForLoop n funcs cond (some (.ret (some e))) body s2) =
              (match execStmt n funcs (.exprStmt e) s1 with
               | Except.error err => Except.error err
               | Except.ok (_, s2) => execForLoop n funcs cond (some (.exprStmt e)) body s2)
          have hse := retStmt_state_eq n funcs e s1
          cases h1 : execStmt n funcs (.ret (some e)) s1 with
          | error err1 =>
            cases h2 : execStmt n funcs (.exprStmt e) s1 with
            | error err2 =>
              rw [h1, h2] at hse
              simp only [Except.map] at hse
              cases hse
              rfl
            | ok p2 =>
              rw [h1, h2] at hse
              simp only [Except.map] at hse
              cases hse
          | ok p1 =>
            obtain ⟨r1, s2⟩ := p1
            cases h2 : execStmt n funcs (.exprStmt e) s1 with
            | error err2 =>
              rw [h1, h2] at hse
              simp only [Except.map] at hse
              cases hse
            | ok p2 =>
              obtain ⟨r2, s3⟩ := p2
              rw [h1, h2] at hse
              simp only [Except.map, Except.ok.injEq] at hse
              rw [hse]
              exact (ih cond body e s3).1

/-- Claim C10 (confirmed): a `return` appearing as the init clause or the
step clause of a C-style for loop has its escaping value discarded: the
loop behaves exactly as if the clause were the bare expression statement,
so the return neither stops the loop nor the enclosing function; in the
concrete instances the loops complete normally with result `none`. -/
theorem c10_for_clause_return_discarded :
    (∀ (fuel : Nat) (funcs : List Function) (e : Expr) (cond : Option Expr)
        (step : Option Stmt) (body : List Stmt) (s : EnvStack),
      execStmt fuel funcs (.forStmt (some (.ret (some e))) cond step body) s =
        execStmt fuel funcs (.forStmt (some (.exprStmt e)) cond step body) s) ∧
    (∀ (fuel : Nat) (funcs : List Function) (e : Expr) (init : Option Stmt)
        (cond : Option Expr) (body : List Stmt) (s : EnvStack),
      execStmt fuel funcs (.forStmt init cond (some (.ret (some e))) body) s =
        execStmt fuel funcs (.forStmt init cond (some (.exprStmt e)) body) s) ∧
    execStmt 30 []
        (.forStmt (some (.ret (some (.int 99))))
          (some (.binary (.int 1) .eq (.int 2))) none [.exprStmt (.int 0)]) [[]] =
      .ok (none, [[]]) ∧
    execStmt 60 []
        (.forStmt (some (.varDecl "i" .int (.int 0)))
          (some (.binary (.var "i") .lt (.int 2)))
          (some (.ret (some (.int 5))))
          [.assign "i" (.binary (.var "i") .add (.int 1))]) [[]] =
      .ok (none, [[]]) := by
  refine ⟨?_, ?_, rfl, rfl⟩
  · intro fuel funcs e cond step body s
    cases fuel with
    | zero => rfl
    | succ n =>
      have e1 : execStmt (n + 1) funcs (.forStmt (some (.ret (some e))) cond step body) s =
          match execStmt n funcs (.ret (some e)) (pushEnv s) with
          | .error err => .error err
          | .ok (_, s1) =>
            match execForLoop n funcs cond step body s1 with
            | .error err => .error err
            | .ok (r, s2) => .ok (r, popEnv s2) := rfl
      have e2 : execStmt (n + 1) funcs (.forStmt (some (.exprStmt e)) cond step body) s =
          match execStmt n funcs (.exprStmt e) (pushEnv s) with
          | .error err => .error err
          | .ok (_, s1) =>
            match execForLoop n funcs cond step body s1 with
            | .error err => .error err
            | .ok (r, s2) => .ok (r, popEnv s2) := rfl
      rw [e1, e2]
      have hse := retStmt_state_eq n funcs e (pushEnv s)
      cases h1 : execStmt n funcs (.ret (some e)) (pushEnv s) with
      | error err1 =>
        cases h2 : execStmt n funcs (.exprStmt e) (pushEnv s) with
        | error err2 =>
          rw [h1, h2] at hse
          simp only [Except.map] at hse
          cases hse
          rfl
        | ok p2 =>
          rw [h1, h2] at hse
          simp only [Except.map] at hse
          cases hse
      | ok p1 =>
        obtain ⟨r1, s2⟩ := p1
        cases h2 : execStmt n funcs (.exprStmt e) (pushEnv s) with
        | error err2 =>
          rw [h1, h2] at hse
          simp only [Except.map] at hse
          cases hse
        | ok p2 =>
          obtain ⟨r2, s3⟩ := p2
          rw [h1, h2] at hse
          simp only [Except.map, Except.ok.injEq] at hse
          rw [hse]
  · intro fuel funcs e init cond body s
    cases fuel with
    | zero => rfl
    | succ n =>
      cases init with
      | none =>
        have e1 : execStmt (n + 1) funcs (.forStmt none cond (some (.ret (some e))) body) s =
            match execForLoop n funcs cond (some (.ret (some e))) body (pushEnv s) with
            | .error err => .error err
            | .ok (r, s2) => .ok (r, popEnv s2) := rfl
        have e2 : execStmt (n + 1) funcs (.forStmt none cond (some (.exprStmt e)) body) s =
            match execForLoop n funcs cond (some (.exprStmt e)) body (pushEnv s) with
            | .error err => .error err
            | .ok (r, s2) => .ok (r, popEnv s2) := rfl
        rw [e1, e2, (forLoop_stepRet_eq n funcs cond body e (pushEnv s)).1]
      | some i =>
        have e1 : execStmt (n + 1) funcs (.forStmt (some i) cond (some (.ret (some e))) body) s =
            match execStmt n funcs i (pushEnv s) with
            | .error err => .error err
            | .ok (_, s1) =>
              match execForLoop n funcs cond (some (.ret (some e))) body s1 with
              | .error err => .error err
              | .ok (r, s2) => .ok (r, popEnv s2) := rfl
        have e2 : execStmt (n + 1) funcs (.forStmt (some i) cond (some (.exprStmt e)) body) s =
            match execStmt n funcs i (pushEnv s) with
            | .error err => .error err
            | .ok (_, s1) =>
              match execForLoop n funcs cond (some (.exprStmt e)) body s1 with
              | .error err => .error err
              | .ok (r, s2) => .ok (r, popEnv s2) := rfl
        rw [e1, e2]
        cases execStmt n funcs i (pushEnv s) with
        | error err => rfl
        | ok p =>
          obtain ⟨r1, s1⟩ := p
          show (match execForLoop n funcs cond (some (.ret (some e))) body s1 with
                | Except.error err => Except.error err
                | Except.ok (r, s2) => Except.ok (r, popEnv s2)) =
              (match execForLoop n funcs cond (some (.exprStmt e)) body s1 with
               | Except.error err => Except.error err
               | Except.ok (r, s2) => Except.ok (r, popEnv s2))
          rw [(forLoop_stepRet_eq n funcs cond body e s1).1]

end Rusthon
